import Mathlib

/-!
Verification development for the schema inspector of the repository,
document-service delete path, and admin `Protect` permission gate.

The PostgreSQL schema inspector (`toStrapiType`, `getIndexType`,
`parseIndexColumns`, `getColumns`, `getIndexes`) is embedded as pure
functions over the raw catalog rows the source selects; the database
round-trip is abstracted into the list of rows the catalog query would
return, and the per-row mapping logic is transcribed verbatim from the
source.
-/

namespace Pg

/-- Raw catalog row for a column, as selected from `information_schema.columns`
(`data_type`, `column_name`, `character_maximum_length`, `column_default`,
`is_nullable`). `column_default` is nullable at runtime (the source guards it
with a truthiness check), hence `Option String`. -/
structure RawColumn where
  data_type : String
  column_name : String
  character_maximum_length : Nat
  column_default : Option String
  is_nullable : String
deriving DecidableEq, Repr

/-- Raw catalog row for an index carrying the uniqueness flags, as declared by
the `RawIndex` interface declared in the source. -/
structure RawIndex where
  indexrelid : String
  index_name : String
  column_name : String
  is_unique : Bool
  is_primary : Bool
deriving DecidableEq, Repr

/-- Row actually selected by `getIndexes` from `pg_indexes`: only `indexname`
and `indexdef` are in the select list. -/
structure PgIndexRow where
  indexname : String
  indexdef : String
deriving DecidableEq, Repr

/-- Arguments attached to a semantic type: numbers (`[10, 2]`), strings
(the longtext marker, the raw native type for the fallback), the datetime options
object with `useTz` and `precision`, and the time options object with
`precision` only. -/
inductive Arg where
  | num (n : Nat)
  | str (s : String)
  | dtOpts (useTz : Bool) (precision : Nat)
  | tOpts (precision : Nat)
deriving DecidableEq, Repr

/-- Result shape of `toStrapiType`: a semantic type name plus optional args
(absent args in the source become `[]` here, matching the `args = []` default
applied at the use site in `getColumns`). -/
structure StrapiType where
  type : String
  args : List Arg := []
deriving DecidableEq, Repr

/-- Characters excluded by the root-type regex `[^(), ]+`. -/
def isRootDelim (c : Char) : Bool :=
  c = '(' || c = ')' || c = ',' || c = ' '

/-- ASCII lower-casing of one character, as `toLowerCase` acts on the ASCII
range (the native type strings in the catalog are ASCII). -/
def jsCharToLower (c : Char) : Char :=
  if 65 ≤ c.toNat ∧ c.toNat ≤ 90 then Char.ofNat (c.toNat + 32) else c

/-- JS `s.toLowerCase()` over the characters of the string. -/
def jsToLower (s : String) : String :=
  String.mk (s.data.map jsCharToLower)

/-- JS `s.match(/[^(), ]+/)?.[0]`: the first maximal run of characters that
are not `(`, `)`, `,` or space; `none` when the string has no such character. -/
def firstToken (s : String) : Option String :=
  let tok := (s.data.dropWhile isRootDelim).takeWhile (fun c => !isRootDelim c)
  if tok.isEmpty then none else some (String.mk tok)

/-- The switch statement of `toStrapiType`, parameterized by the computed
root token (lower-cased native `data_type`, first run of characters outside
`(), ` — `undefined` when absent): equality dispatch on the root, with the
`real` and `double` cases sharing the `double` result, and unknown roots
(including a missing root) falling back to `specificType` carrying the
original `data_type` string. -/
def strapiSwitch (column : RawColumn) (rootType : Option String) : StrapiType :=
  if rootType = some "integer" then { type := "integer" }
  else if rootType = some "text" then { type := "text", args := [Arg.str "longtext"] }
  else if rootType = some "boolean" then { type := "boolean" }
  else if rootType = some "character" then
    { type := "string", args := [Arg.num column.character_maximum_length] }
  else if rootType = some "timestamp" then
    { type := "datetime", args := [Arg.dtOpts false 6] }
  else if rootType = some "date" then { type := "date" }
  else if rootType = some "time" then { type := "time", args := [Arg.tOpts 3] }
  else if rootType = some "numeric" then
    { type := "decimal", args := [Arg.num 10, Arg.num 2] }
  else if rootType = some "real" then { type := "double" }
  else if rootType = some "double" then { type := "double" }
  else if rootType = some "bigint" then { type := "bigInteger" }
  else if rootType = some "jsonb" then { type := "jsonb" }
  else { type := "specificType", args := [Arg.str column.data_type] }

/-- The composition of the two statements of the source function: compute the
root type, then run the switch on it. -/
def toStrapiType (column : RawColumn) : StrapiType :=
  strapiSwitch column (firstToken (jsToLower column.data_type))

/-- Core of `getIndexType`, abstracted over the two flag reads: `primary` when
`is_primary` is truthy, else `unique` when `is_unique` is truthy, else the
function returns `undefined` (there is no final return), modelled as `none`. -/
def getIndexTypeFlags (isPrimaryFlag : Bool) (isUniqueFlag : Bool) : Option String :=
  if isPrimaryFlag then some "primary"
  else if isUniqueFlag then some "unique"
  else none

/-- Transcription of `getIndexType` applied to a full `RawIndex` row. -/
def getIndexType (index : RawIndex) : Option String :=
  getIndexTypeFlags index.is_primary index.is_unique

/-- Whether `needle` occurs as a contiguous run inside the character list. -/
def hasSubstr (needle : List Char) : List Char → Bool
  | [] => needle.isEmpty
  | c :: rest => needle.isPrefixOf (c :: rest) || hasSubstr needle rest

/-- JS `haystack.includes(needle)`: substring occurrence. -/
def jsIncludes (haystack : String) (needle : String) : Bool :=
  hasSubstr needle.data haystack.data

/-- Whether the (possibly null) catalog default expression contains a
`nextval(` sequence-generator invocation; a null default contains nothing. -/
def containsNextval (columnDefault : Option String) : Bool :=
  match columnDefault with
  | none => false
  | some d => jsIncludes d "nextval("

/-- Normalized column emitted by `getColumns`. -/
structure Column where
  name : String
  type : String
  args : List Arg
  defaultTo : Option String
  notNullable : Bool
  unsigned : Bool
deriving DecidableEq, Repr

/-- The per-row body of `getColumns`: apply `toStrapiType`, null out defaults
that contain a `nextval(` call (the truthiness guard means a null default
passes through as null), and read `notNullable` from comparing `is_nullable` with the literal string NO. -/
def toColumn (column : RawColumn) : Column :=
  let st := toStrapiType column
  { name := column.column_name
    type := st.type
    args := st.args
    defaultTo :=
      match column.column_default with
      | none => none
      | some d => if jsIncludes d "nextval(" then none else some d
    notNullable := column.is_nullable == "NO"
    unsigned := false }

/-- `getColumns` over the rows the catalog query returns for the table. -/
def getColumns (rows : List RawColumn) : List Column :=
  rows.map toColumn

/-- JS lazy regex `\((.*?)\)` applied to a character list: scan left to right
for a `(` from which a `)` is reachable without crossing a line terminator
(`.` does not match newlines), and capture the minimal run up to that first
`)`. Returns the captured group, or `none` when no position matches. -/
def lazyParenGroup : List Char → Option (List Char)
  | [] => none
  | '(' :: rest =>
    let inner := rest.takeWhile (fun c => c ≠ ')' && c ≠ '\n' && c ≠ '\r')
    if (rest.drop inner.length).head? = some ')' then some inner
    else lazyParenGroup rest
  | _ :: rest => lazyParenGroup rest

/-- Split a character list on the comma separator, as JS `split(",")` does:
the empty list yields one empty piece. -/
def splitOnComma (cs : List Char) : List (List Char) :=
  cs.foldr
    (fun c acc =>
      match acc with
      | [] => [[c]]
      | cur :: done => if c = ',' then [] :: cur :: done else (c :: cur) :: done)
    [[]]

/-- JS `trim()`: strip whitespace from both ends. -/
def trimChars (cs : List Char) : List Char :=
  ((cs.dropWhile Char.isWhitespace).reverse.dropWhile Char.isWhitespace).reverse

/-- Transcription of `parseIndexColumns`: first parenthesized group of the
index definition, split on commas, each piece trimmed; `[]` when the regex
does not match. -/
def parseIndexColumns (indexDef : String) : List String :=
  match lazyParenGroup indexDef.data with
  | some inner => (splitOnComma inner).map (fun col => String.mk (trimChars col))
  | none => []

/-- Index emitted by `getIndexes`. -/
structure IndexModel where
  name : String
  columns : List String
  type : Option String
deriving DecidableEq, Repr

/-- `getIndexes` over the `pg_indexes` rows for the table. The select list is
only `indexname, indexdef`, so the rows passed to `getIndexType` carry no
`is_primary` or `is_unique` field: in JS both property reads yield
`undefined`, which is falsy, modelled by passing `false` for both flags. -/
def getIndexes (rows : List PgIndexRow) : List IndexModel :=
  rows.map fun index =>
    { name := index.indexname
      columns := parseIndexColumns index.indexdef
      type := getIndexTypeFlags false false }

end Pg

namespace DocSvc

/-- Publication status of a document version. -/
inductive Status where
  | draft
  | published
deriving DecidableEq, Repr

/-- Modelled from the spec: a `DocumentVersion` is one physical row for a
`(documentId, locale, status)` combination, carrying its field payload; the
delete implementation itself is not under `src/` (only its test suite is), so
the row shape follows the data model section of the spec. -/
structure DocumentVersion where
  id : Nat
  documentId : Nat
  locale : String
  status : Status
  fields : String
deriving DecidableEq, Repr

/-- Modelled from the spec: a component or dynamic-zone child row, exclusively
owned by exactly one `DocumentVersion` through `ownerVersionId`. -/
structure ChildRow where
  id : Nat
  ownerVersionId : Nat
  fields : String
deriving DecidableEq, Repr

/-- Modelled from the spec: the relational store visible to the delete path —
the document table plus the owned component/dynamic-zone child tables,
flattened into one child list keyed by owning version. -/
structure Store where
  versions : List DocumentVersion
  children : List ChildRow
deriving DecidableEq, Repr

/-- Errors surfaced by the document service delete path. -/
inductive DocError where
  | validationError (message : String)
deriving DecidableEq, Repr

/-- Options accepted by `delete(documentId, options?)`. -/
structure DeleteOptions where
  locale : Option String := none
  status : Option Status := none
deriving DecidableEq, Repr

/-- Modelled from the spec: whether a version row is in the scope selected by
the delete options — same document, and matching the locale filter and status
filter when present (absent filter selects every locale / every status). -/
def inDeleteScope (documentId : Nat) (opts : DeleteOptions) (v : DocumentVersion) : Bool :=
  v.documentId == documentId &&
    (match opts.locale with
     | none => true
     | some l => v.locale == l) &&
    (match opts.status with
     | none => true
     | some st => v.status == st)

/-- Modelled from the spec: `delete(documentId, options?)` for the delete
path, whose implementation is not under `src/` (only its test suite is).
Per the spec: a delete with draft status is rejected with
`ValidationError("Cannot delete a draft document")` and has no effect;
otherwise every version in scope is removed together with all child rows owned
by a removed version (children before parent inside one transaction, which in
this state-level model collapses to one simultaneous removal). -/
def deleteDocument (s : Store) (documentId : Nat) (opts : DeleteOptions) :
    Except DocError Store :=
  if opts.status = some Status.draft then
    Except.error (DocError.validationError "Cannot delete a draft document")
  else
    let targetIds := (s.versions.filter (inDeleteScope documentId opts)).map (fun v => v.id)
    Except.ok
      { versions := s.versions.filter (fun v => !inDeleteScope documentId opts v)
        children := s.children.filter (fun c => !targetIds.contains c.ownerVersionId) }

/-- Modelled from the spec: the store observed after the call — on success the
new store, on failure (the transaction rolls back) the store exactly as it was
before the call. -/
def applyDelete (s : Store) (documentId : Nat) (opts : DeleteOptions) : Store :=
  match deleteDocument s documentId opts with
  | Except.ok s' => s'
  | Except.error _ => s

end DocSvc

namespace AdminUI

/-- A permission held by the user (from the RBAC provider): an action, an
optional subject, and condition names. -/
structure Permission where
  action : String
  subject : Option String
  conditions : List String
deriving DecidableEq, Repr

/-- A permission required by the `permissions` prop of `Protect`: the action
is mandatory, the subject optional (per the declared prop type); only `action` and `subject` are read. -/
structure RequiredPermission where
  action : String
  subject : Option String
deriving DecidableEq, Repr

/-- State of the `useCheckPermissionsQuery` hook: loading flag, optional
error, and the boolean verdicts (`data`, defaulted to `[]` when absent). -/
structure QueryState where
  isLoading : Bool
  error : Option String
  data : List Bool
deriving DecidableEq, Repr

/-- Modelled from the skip semantics of RTK Query (the hook is external to this
repository): a skipped query stays uninitialized — not loading, no error, no
data. -/
def skippedQueryState : QueryState :=
  { isLoading := false, error := none, data := [] }

/-- Transcription of the `matchingPermissions` filter inside `Protect`: the
user permissions whose `(action, subject)` pair appears in the `permissions`
prop (`findIndex(...) >= 0` is membership). -/
def matchingPermissions (allPermissions : List Permission)
    (permissions : List RequiredPermission) : List Permission :=
  allPermissions.filter fun permission =>
    permissions.any fun perm =>
      perm.action == permission.action && perm.subject == permission.subject

/-- Transcription of `shouldCheckConditions`: some matching permission carries
a non-empty conditions array. -/
def shouldCheckConditions (matching : List Permission) : Bool :=
  matching.any fun perm => decide (perm.conditions.length > 0)

/-- What `Protect` renders. -/
inductive Rendered where
  | loading
  | errorPage
  | noAccess
  | children (matching : List Permission)
deriving DecidableEq, Repr

/-- Observable outcome of one render of `Protect`: the rendered page and
whether the warning notification effect fired (it fires exactly when the
query reports an error). -/
structure ProtectResult where
  rendered : Rendered
  warningNotified : Bool
deriving DecidableEq, Repr

/-- Transcription of the `Protect` component body: compute the matching
permissions, run the condition-check query only when some matching permission
has conditions (otherwise the hook is skipped and stays uninitialized), fire
the warning notification on query error, then render loading, the error page,
the children (when `canAccess`), or the no-access page. `canAccess` is
`!data.includes(false)` when conditions were checked and
`matchingPermissions.length > 0` otherwise. -/
def protect (allPermissions : List Permission) (permissions : List RequiredPermission)
    (query : QueryState) : ProtectResult :=
  let matching := matchingPermissions allPermissions permissions
  let shouldCheck := shouldCheckConditions matching
  let st := if shouldCheck then query else skippedQueryState
  let warningNotified := st.error.isSome
  if st.isLoading then
    { rendered := Rendered.loading, warningNotified := warningNotified }
  else if st.error.isSome then
    { rendered := Rendered.errorPage, warningNotified := warningNotified }
  else
    let canAccess :=
      if shouldCheck then !(st.data.contains false)
      else decide (matching.length > 0)
    if canAccess then
      { rendered := Rendered.children matching, warningNotified := warningNotified }
    else
      { rendered := Rendered.noAccess, warningNotified := warningNotified }

/-- Whether a required permission is matched by some permission the user
holds (same action and subject) — the reading of "resolves true for the
user" used to state the claims about `Protect`. -/
def requiredHeld (allPermissions : List Permission) (req : RequiredPermission) : Bool :=
  allPermissions.any fun permission =>
    req.action == permission.action && req.subject == permission.subject

end AdminUI

/-! Concrete catalog rows used by witnesses and counterexamples. -/

/-- A `jsonb` catalog column. -/
def jsonbRawColumn : Pg.RawColumn :=
  { data_type := "jsonb", column_name := "payload", character_maximum_length := 0
    column_default := none, is_nullable := "YES" }

/-- A catalog column of an unmapped native type. -/
def uuidRawColumn : Pg.RawColumn :=
  { data_type := "uuid", column_name := "document_id", character_maximum_length := 0
    column_default := none, is_nullable := "NO" }

/-- A numeric column whose declared precision and scale differ from 10 and 2. -/
def numericRawColumn : Pg.RawColumn :=
  { data_type := "numeric(42,7)", column_name := "price", character_maximum_length := 0
    column_default := none, is_nullable := "YES" }

/-- A timestamp column with a declared precision other than 6. -/
def timestampRawColumn : Pg.RawColumn :=
  { data_type := "timestamp(3) without time zone", column_name := "created_at"
    character_maximum_length := 0, column_default := none, is_nullable := "YES" }

/-- An integer column whose default is a sequence-generator call. -/
def serialRawColumn : Pg.RawColumn :=
  { data_type := "integer", column_name := "id", character_maximum_length := 0
    column_default := some "nextval(articles_id_seq::regclass)", is_nullable := "NO" }

/-- A column with a literal default expression. -/
def literalDefaultRawColumn : Pg.RawColumn :=
  { data_type := "boolean", column_name := "enabled", character_maximum_length := 0
    column_default := some "true", is_nullable := "YES" }

/-- A plain (neither primary nor unique) index row as `getIndexes` selects it
from `pg_indexes`. -/
def plainIdxRow : Pg.PgIndexRow :=
  { indexname := "articles_title_idx"
    indexdef := "CREATE INDEX articles_title_idx ON public.articles USING btree (title)" }

/-- A raw index row with both the primary and the unique flag set. -/
def primaryUniqueRawIndex : Pg.RawIndex :=
  { indexrelid := "16constraint", index_name := "articles_pkey", column_name := "id"
    is_unique := true, is_primary := true }

/-- A document store shaped like the test fixtures: document 1 has an English
draft with a component child, an English published version, and a Dutch draft
with a dynamic-zone child; document 2 has an English draft with a child. -/
def wStore : DocSvc.Store :=
  { versions :=
      [DocSvc.DocumentVersion.mk 1 1 "en" DocSvc.Status.draft "Article1-Draft-EN",
       DocSvc.DocumentVersion.mk 2 1 "en" DocSvc.Status.published "Article1-Published-EN",
       DocSvc.DocumentVersion.mk 3 1 "nl" DocSvc.Status.draft "Article1-Draft-NL",
       DocSvc.DocumentVersion.mk 4 2 "en" DocSvc.Status.draft "Article2-Draft-EN"]
    children :=
      [DocSvc.ChildRow.mk 10 1 "comp-1",
       DocSvc.ChildRow.mk 11 3 "dz-comp-1",
       DocSvc.ChildRow.mk 12 4 "comp-2"] }

/-- The store left after deleting all of document 1 from `wStore`. -/
def wStoreAfterAll : DocSvc.Store :=
  { versions := [DocSvc.DocumentVersion.mk 4 2 "en" DocSvc.Status.draft "Article2-Draft-EN"]
    children := [DocSvc.ChildRow.mk 12 4 "comp-2"] }

/-- A store where document 3 has both a draft and a published English version. -/
def wPubStore : DocSvc.Store :=
  { versions :=
      [DocSvc.DocumentVersion.mk 5 3 "en" DocSvc.Status.draft "Article2-Draft-EN",
       DocSvc.DocumentVersion.mk 6 3 "en" DocSvc.Status.published "Article2-Published-EN"]
    children := [] }

/-- The store left after deleting the published version of document 3. -/
def wPubStoreAfter : DocSvc.Store :=
  { versions := [DocSvc.DocumentVersion.mk 5 3 "en" DocSvc.Status.draft "Article2-Draft-EN"]
    children := [] }

/-- The store left after deleting the Dutch locale of document 1 from
`wStore`. -/
def wStoreAfterNl : DocSvc.Store :=
  { versions :=
      [DocSvc.DocumentVersion.mk 1 1 "en" DocSvc.Status.draft "Article1-Draft-EN",
       DocSvc.DocumentVersion.mk 2 1 "en" DocSvc.Status.published "Article1-Published-EN",
       DocSvc.DocumentVersion.mk 4 2 "en" DocSvc.Status.draft "Article2-Draft-EN"]
    children := [DocSvc.ChildRow.mk 10 1 "comp-1", DocSvc.ChildRow.mk 12 4 "comp-2"] }

/-- A user who holds the read permission, unconditioned. -/
def cUserPerms : List AdminUI.Permission :=
  [AdminUI.Permission.mk "plugin::content-manager.read" none []]

/-- A `Protect` prop requiring both the read and the update permission. -/
def cRequired : List AdminUI.RequiredPermission :=
  [AdminUI.RequiredPermission.mk "plugin::content-manager.read" none,
   AdminUI.RequiredPermission.mk "plugin::content-manager.update" none]

/-- The required update permission, which the user above does not hold. -/
def cUnmetReq : AdminUI.RequiredPermission :=
  AdminUI.RequiredPermission.mk "plugin::content-manager.update" none

/-- A user whose read permission carries a condition, so the check query runs. -/
def cCondPerms : List AdminUI.Permission :=
  [AdminUI.Permission.mk "plugin::content-manager.read" none ["admin::is-creator"]]

/-- A `Protect` prop requiring the read permission. -/
def cCondRequired : List AdminUI.RequiredPermission :=
  [AdminUI.RequiredPermission.mk "plugin::content-manager.read" none]

/-- A finished permission-check query that failed. -/
def cErrQuery : AdminUI.QueryState :=
  { isLoading := false, error := some "ERR_PERMISSIONS", data := [] }

/-- Helper: the switch body always produces a type in the vocabulary that
contains `jsonb`, and the fallback branch carries the raw native type. -/
theorem strapiSwitch_vocab (column : Pg.RawColumn) (rt : Option String) :
    (Pg.strapiSwitch column rt).type ∈
      (["integer", "text", "boolean", "string", "datetime", "date", "time",
        "decimal", "double", "bigInteger", "jsonb", "specificType"] : List String) ∧
    ((Pg.strapiSwitch column rt).type = "specificType" →
      (Pg.strapiSwitch column rt).args = [Pg.Arg.str column.data_type]) := by
  cases rt with
  | none =>
    exact ⟨by simp [Pg.strapiSwitch], fun hty => by simp [Pg.strapiSwitch]⟩
  | some s =>
    by_cases h1 : s = "integer"
    · subst h1; exact ⟨by simp [Pg.strapiSwitch], fun hty => by simp [Pg.strapiSwitch] at hty⟩
    by_cases h2 : s = "text"
    · subst h2; exact ⟨by simp [Pg.strapiSwitch], fun hty => by simp [Pg.strapiSwitch] at hty⟩
    by_cases h3 : s = "boolean"
    · subst h3; exact ⟨by simp [Pg.strapiSwitch], fun hty => by simp [Pg.strapiSwitch] at hty⟩
    by_cases h4 : s = "character"
    · subst h4; exact ⟨by simp [Pg.strapiSwitch], fun hty => by simp [Pg.strapiSwitch] at hty⟩
    by_cases h5 : s = "timestamp"
    · subst h5; exact ⟨by simp [Pg.strapiSwitch], fun hty => by simp [Pg.strapiSwitch] at hty⟩
    by_cases h6 : s = "date"
    · subst h6; exact ⟨by simp [Pg.strapiSwitch], fun hty => by simp [Pg.strapiSwitch] at hty⟩
    by_cases h7 : s = "time"
    · subst h7; exact ⟨by simp [Pg.strapiSwitch], fun hty => by simp [Pg.strapiSwitch] at hty⟩
    by_cases h8 : s = "numeric"
    · subst h8; exact ⟨by simp [Pg.strapiSwitch], fun hty => by simp [Pg.strapiSwitch] at hty⟩
    by_cases h9 : s = "real"
    · subst h9; exact ⟨by simp [Pg.strapiSwitch], fun hty => by simp [Pg.strapiSwitch] at hty⟩
    by_cases h10 : s = "double"
    · subst h10; exact ⟨by simp [Pg.strapiSwitch], fun hty => by simp [Pg.strapiSwitch] at hty⟩
    by_cases h11 : s = "bigint"
    · subst h11; exact ⟨by simp [Pg.strapiSwitch], fun hty => by simp [Pg.strapiSwitch] at hty⟩
    by_cases h12 : s = "jsonb"
    · subst h12; exact ⟨by simp [Pg.strapiSwitch], fun hty => by simp [Pg.strapiSwitch] at hty⟩
    exact ⟨by simp [Pg.strapiSwitch, h1, h2, h3, h4, h5, h6, h7, h8, h9, h10, h11, h12],
           fun hty => by
             simp [Pg.strapiSwitch, h1, h2, h3, h4, h5, h6, h7, h8, h9, h10, h11, h12]⟩

/-- Claim C5: for every raw catalog column the type mapping is total and lands
in the spec vocabulary containing `json`. Refuted: the `jsonb` native type is
mapped to the semantic type `jsonb`, which is not in that vocabulary (the
vocabulary containing `json` instead of `jsonb` does not describe the code). -/
theorem toStrapiType_json_vocabulary_cex :
    (Pg.toStrapiType jsonbRawColumn).type ∉
      (["integer", "text", "boolean", "string", "datetime", "date", "time",
        "decimal", "double", "bigInteger", "json", "specificType"] : List String) := by
  decide

/-- Claim C5 (amended): the type mapping is total and deterministic, its type
always lands in the fixed vocabulary with `jsonb` in place of the claimed
`json`, and every unmapped native type falls back to `specificType` carrying
the original native type string as its only argument. -/
theorem toStrapiType_total_vocabulary (column : Pg.RawColumn) :
    (Pg.toStrapiType column).type ∈
      (["integer", "text", "boolean", "string", "datetime", "date", "time",
        "decimal", "double", "bigInteger", "jsonb", "specificType"] : List String) ∧
    ((Pg.toStrapiType column).type = "specificType" →
      (Pg.toStrapiType column).args = [Pg.Arg.str column.data_type]) :=
  strapiSwitch_vocab column (Pg.firstToken (Pg.jsToLower column.data_type))

/-- Witness for the amended C5 theorem at the unmapped native type `uuid`. -/
theorem toStrapiType_total_vocabulary_witness :
    (Pg.toStrapiType uuidRawColumn).type ∈
      (["integer", "text", "boolean", "string", "datetime", "date", "time",
        "decimal", "double", "bigInteger", "jsonb", "specificType"] : List String) ∧
    (Pg.toStrapiType uuidRawColumn).args = [Pg.Arg.str "uuid"] :=
  ⟨(toStrapiType_total_vocabulary uuidRawColumn).1,
   (toStrapiType_total_vocabulary uuidRawColumn).2 (by decide)⟩

/-- Claim C6: every index returned by `getIndexes` has kind in
primary/unique/secondary. Refuted: the select list carries no flag fields, so
the kind of every returned index is undefined (`none`), which is none of the
three values. -/
theorem getIndexes_kind_cex :
    (Pg.getIndexes [plainIdxRow]).map Pg.IndexModel.type = [none] ∧
    (none : Option String) ∉
      ([some "primary", some "unique", some "secondary"] : List (Option String)) := by
  exact ⟨rfl, by decide⟩

/-- Claim C6 (amended): every index returned by `getIndexes` has an undefined
kind, because the query selects only `indexname` and `indexdef` and the
primary/unique flags are never read; the helper `getIndexType`, applied to a
raw row carrying the flags, does give `primary` precedence over `unique` when
both are set, yields `unique` when only the unique flag is set, and never
yields `secondary`. -/
theorem getIndexes_kind_amended (rows : List Pg.PgIndexRow) (idx : Pg.IndexModel)
    (hidx : idx ∈ Pg.getIndexes rows) (raw : Pg.RawIndex) :
    idx.type = none ∧
    (raw.is_primary = true → Pg.getIndexType raw = some "primary") ∧
    (raw.is_primary = false → raw.is_unique = true → Pg.getIndexType raw = some "unique") ∧
    Pg.getIndexType raw ≠ some "secondary" := by
  refine ⟨?_, ?_, ?_, ?_⟩
  · simp only [Pg.getIndexes, List.mem_map] at hidx
    obtain ⟨r, -, rfl⟩ := hidx
    rfl
  · intro h
    simp [Pg.getIndexType, Pg.getIndexTypeFlags, h]
  · intro h1 h2
    simp [Pg.getIndexType, Pg.getIndexTypeFlags, h1, h2]
  · cases hp : raw.is_primary <;> cases hu : raw.is_unique <;>
      simp [Pg.getIndexType, Pg.getIndexTypeFlags, hp, hu]

/-- Witness for the amended C6 theorem: a concrete plain index row and a
concrete raw row with both flags set. -/
theorem getIndexes_kind_amended_witness :
    (Pg.IndexModel.mk "articles_title_idx" ["title"] none).type = none ∧
    Pg.getIndexType primaryUniqueRawIndex = some "primary" :=
  ⟨(getIndexes_kind_amended [plainIdxRow] (Pg.IndexModel.mk "articles_title_idx" ["title"] none)
      (by decide) primaryUniqueRawIndex).1,
   (getIndexes_kind_amended [plainIdxRow] (Pg.IndexModel.mk "articles_title_idx" ["title"] none)
      (by decide) primaryUniqueRawIndex).2.1 (by decide)⟩

/-- Claim C7: for every column returned by `getColumns`, a default expression
containing a `nextval(` sequence-generator call is surfaced as a null
`defaultTo`, and any other default expression (including the null one) is
surfaced unchanged. -/
theorem getColumns_defaultTo_nextval (rows : List Pg.RawColumn) (column : Pg.RawColumn)
    (hmem : column ∈ rows) :
    Pg.toColumn column ∈ Pg.getColumns rows ∧
    (Pg.containsNextval column.column_default = true →
      (Pg.toColumn column).defaultTo = none) ∧
    (Pg.containsNextval column.column_default = false →
      (Pg.toColumn column).defaultTo = column.column_default) := by
  refine ⟨List.mem_map_of_mem Pg.toColumn hmem, ?_, ?_⟩
  · intro h
    cases hd : column.column_default with
    | none => simp [Pg.toColumn, hd]
    | some d =>
      rw [hd] at h
      simp [Pg.containsNextval] at h
      simp [Pg.toColumn, hd, h]
  · intro h
    cases hd : column.column_default with
    | none => simp [Pg.toColumn, hd]
    | some d =>
      rw [hd] at h
      simp [Pg.containsNextval] at h
      simp [Pg.toColumn, hd, h]

/-- Witness for the C7 theorem: a serial column (sequence default nulled out)
and a boolean column (literal default preserved). -/
theorem getColumns_defaultTo_nextval_witness :
    (Pg.toColumn serialRawColumn).defaultTo = none ∧
    (Pg.toColumn literalDefaultRawColumn).defaultTo = some "true" :=
  ⟨(getColumns_defaultTo_nextval [serialRawColumn, literalDefaultRawColumn]
      serialRawColumn (by decide)).2.1 (by decide),
   (getColumns_defaultTo_nextval [serialRawColumn, literalDefaultRawColumn]
      literalDefaultRawColumn (by decide)).2.2 (by decide)⟩

/-- Claim C10: every catalog column whose native root type is `numeric` is
surfaced as `decimal` with args exactly 10 and 2, and every column whose root
type is `timestamp` is surfaced as `datetime` with the fixed options object
(no timezone, precision 6) — the declared precision and scale in the catalog
row are never consulted. -/
theorem toColumn_numeric_timestamp_fixed_args (column : Pg.RawColumn) :
    (Pg.firstToken (Pg.jsToLower column.data_type) = some "numeric" →
      (Pg.toColumn column).type = "decimal" ∧
      (Pg.toColumn column).args = [Pg.Arg.num 10, Pg.Arg.num 2]) ∧
    (Pg.firstToken (Pg.jsToLower column.data_type) = some "timestamp" →
      (Pg.toColumn column).type = "datetime" ∧
      (Pg.toColumn column).args = [Pg.Arg.dtOpts false 6]) := by
  constructor <;> intro h <;> simp only [Pg.toColumn, Pg.toStrapiType, h] <;>
    exact ⟨rfl, rfl⟩

/-- Witness for the C10 theorem: a numeric column declared with precision 42
and scale 7 still gets args 10 and 2, and a timestamp column declared with
precision 3 still gets the fixed options object with precision 6. -/
theorem toColumn_numeric_timestamp_fixed_args_witness :
    ((Pg.toColumn numericRawColumn).type = "decimal" ∧
      (Pg.toColumn numericRawColumn).args = [Pg.Arg.num 10, Pg.Arg.num 2]) ∧
    ((Pg.toColumn timestampRawColumn).type = "datetime" ∧
      (Pg.toColumn timestampRawColumn).args = [Pg.Arg.dtOpts false 6]) :=
  ⟨(toColumn_numeric_timestamp_fixed_args numericRawColumn).1 (by decide),
   (toColumn_numeric_timestamp_fixed_args timestampRawColumn).2 (by decide)⟩

/-- Helper: on any options whose status filter is not draft, the delete
succeeds and returns the store filtered of the in-scope versions and of the
children owned by an in-scope version. -/
theorem deleteDocument_ok_eq (s : DocSvc.Store) (d : Nat) (opts : DocSvc.DeleteOptions)
    (hst : opts.status ≠ some DocSvc.Status.draft) :
    DocSvc.deleteDocument s d opts =
      Except.ok
        { versions := s.versions.filter (fun v => !DocSvc.inDeleteScope d opts v)
          children := s.children.filter (fun c =>
            !((s.versions.filter (DocSvc.inDeleteScope d opts)).map
                (fun v => v.id)).contains c.ownerVersionId) } := by
  simp [DocSvc.deleteDocument, hst]

/-- Claim C1: deleting a document with no locale or status option removes
every version row of that document (all locales, all statuses) and every
child row owned by any of those versions — afterwards no version row carries
the documentId and no surviving child row is owned by any former version of
the document. -/
theorem delete_whole_document_no_rows (s : DocSvc.Store) (d : Nat) (s' : DocSvc.Store)
    (h : DocSvc.deleteDocument s d {} = Except.ok s') :
    (∀ v ∈ s'.versions, v.documentId ≠ d) ∧
    (∀ c ∈ s'.children, ∀ v ∈ s.versions, v.documentId = d → c.ownerVersionId ≠ v.id) := by
  rw [deleteDocument_ok_eq s d {} (by simp)] at h
  rw [Except.ok.injEq] at h
  subst h
  constructor
  · intro v hv
    rw [List.mem_filter] at hv
    simpa [DocSvc.inDeleteScope] using hv.2
  · intro c hc v hv hdoc
    rw [List.mem_filter] at hc
    have hnot := hc.2
    simp only [Bool.not_eq_true'] at hnot
    intro heq
    have hmem : v.id ∈ (s.versions.filter (DocSvc.inDeleteScope d {})).map
        (fun v => v.id) := by
      refine List.mem_map.2 ⟨v, List.mem_filter.2 ⟨hv, ?_⟩, rfl⟩
      simp [DocSvc.inDeleteScope, hdoc]
    rw [heq] at hnot
    simp [List.contains] at hnot
    exact absurd hmem (by simpa using hnot)

/-- Witness for the C1 theorem: in the fixture store, after deleting document
1 entirely, the surviving row belongs to document 2. -/
theorem delete_whole_document_no_rows_witness :
    (DocSvc.DocumentVersion.mk 4 2 "en" DocSvc.Status.draft "Article2-Draft-EN").documentId ≠ 1 :=
  (delete_whole_document_no_rows wStore 1 wStoreAfterAll (by rfl)).1
    (DocSvc.DocumentVersion.mk 4 2 "en" DocSvc.Status.draft "Article2-Draft-EN") (by decide)

/-- Claim C2: for every store, documentId and locale option, deleting with the
draft status option fails with a ValidationError carrying exactly the message
"Cannot delete a draft document", and the observed store is unchanged (the
failed transaction has no partial effect). -/
theorem delete_draft_rejected (s : DocSvc.Store) (d : Nat) (lo : Option String) :
    DocSvc.deleteDocument s d { locale := lo, status := some DocSvc.Status.draft } =
      Except.error (DocSvc.DocError.validationError "Cannot delete a draft document") ∧
    DocSvc.applyDelete s d { locale := lo, status := some DocSvc.Status.draft } = s := by
  constructor <;> simp [DocSvc.deleteDocument, DocSvc.applyDelete]

/-- Claim C3: on a document with both a draft and a published version for a
locale, deleting with the published status option keeps every draft row of
that document and locale (present and unmodified), leaves no published row of
the document, and removes nothing that was not in the store. -/
theorem delete_published_keeps_draft (s : DocSvc.Store) (d : Nat) (L : String)
    (s' : DocSvc.Store)
    (hdraft : ∃ v ∈ s.versions,
      v.documentId = d ∧ v.locale = L ∧ v.status = DocSvc.Status.draft)
    (hpub : ∃ v ∈ s.versions,
      v.documentId = d ∧ v.locale = L ∧ v.status = DocSvc.Status.published)
    (h : DocSvc.deleteDocument s d { status := some DocSvc.Status.published } =
      Except.ok s') :
    (∀ v ∈ s.versions,
      v.documentId = d → v.locale = L → v.status = DocSvc.Status.draft →
        v ∈ s'.versions) ∧
    (∀ v ∈ s'.versions, ¬(v.documentId = d ∧ v.status = DocSvc.Status.published)) ∧
    (∀ v ∈ s'.versions, v ∈ s.versions) := by
  clear hdraft hpub
  rw [deleteDocument_ok_eq s d _ (by simp)] at h
  rw [Except.ok.injEq] at h
  subst h
  refine ⟨?_, ?_, ?_⟩
  · intro v hv hdoc hloc hst
    refine List.mem_filter.2 ⟨hv, ?_⟩
    simp [DocSvc.inDeleteScope, hst]
  · intro v hv
    rw [List.mem_filter] at hv
    have hvs := hv.2
    simp [DocSvc.inDeleteScope] at hvs
    rintro ⟨hdoc, hst⟩
    rcases hvs with hnd | hns
    · exact hnd hdoc
    · exact hns hst
  · intro v hv
    exact (List.mem_filter.1 hv).1

/-- Witness for the C3 theorem: document 3 of the fixture has an English
draft and an English published version; after deleting the published version
the draft row is still present. -/
theorem delete_published_keeps_draft_witness :
    DocSvc.DocumentVersion.mk 5 3 "en" DocSvc.Status.draft "Article2-Draft-EN"
      ∈ wPubStoreAfter.versions :=
  (delete_published_keeps_draft wPubStore 3 "en" wPubStoreAfter
      (by decide) (by decide) (by rfl)).1
    (DocSvc.DocumentVersion.mk 5 3 "en" DocSvc.Status.draft "Article2-Draft-EN")
    (by decide) rfl rfl rfl

/-- Claim C4: deleting one locale of a document removes exactly the version
rows of that document and locale together with their owned children — no
surviving child row is owned by a removed version; every other version row
survives unchanged, the children of the surviving rows survive unchanged
(given globally distinct version row ids), and no row appears from nowhere. -/
theorem delete_locale_frame (s : DocSvc.Store) (d : Nat) (L : String) (s' : DocSvc.Store)
    (hnodup : (s.versions.map (fun v => v.id)).Nodup)
    (h : DocSvc.deleteDocument s d { locale := some L } = Except.ok s') :
    (∀ v ∈ s'.versions, ¬(v.documentId = d ∧ v.locale = L)) ∧
    (∀ v ∈ s.versions, ¬(v.documentId = d ∧ v.locale = L) → v ∈ s'.versions) ∧
    (∀ v ∈ s'.versions, v ∈ s.versions) ∧
    (∀ c ∈ s.children, ∀ v ∈ s.versions, c.ownerVersionId = v.id →
      ¬(v.documentId = d ∧ v.locale = L) → c ∈ s'.children) ∧
    (∀ c ∈ s'.children, c ∈ s.children) ∧
    (∀ c ∈ s'.children, ∀ v ∈ s.versions, v.documentId = d → v.locale = L →
      c.ownerVersionId ≠ v.id) := by
  rw [deleteDocument_ok_eq s d _ (by simp)] at h
  rw [Except.ok.injEq] at h
  subst h
  refine ⟨?_, ?_, ?_, ?_, ?_, ?_⟩
  · intro v hv
    rw [List.mem_filter] at hv
    have hvs := hv.2
    simp [DocSvc.inDeleteScope] at hvs
    rintro ⟨hdoc, hloc⟩
    rcases hvs with hnd | hnl
    · exact hnd hdoc
    · exact hnl hloc
  · intro v hv hnot
    refine List.mem_filter.2 ⟨hv, ?_⟩
    simp only [DocSvc.inDeleteScope, Bool.not_eq_true', Bool.and_eq_false_imp]
    simp only [not_and] at hnot
    by_cases hd : v.documentId = d
    · by_cases hl : v.locale = L
      · exact absurd hl (hnot hd)
      · simp [hd, hl]
    · simp [hd]
  · intro v hv
    exact (List.mem_filter.1 hv).1
  · intro c hc v hv heq hnot
    have hnm : c.ownerVersionId ∉
        (s.versions.filter
          (DocSvc.inDeleteScope d { locale := some L, status := none })).map
            (fun v => v.id) := by
      intro hmem
      rw [List.mem_map] at hmem
      obtain ⟨t, htf, hid⟩ := hmem
      have ht := List.mem_filter.1 htf
      have hteq : t = v :=
        List.inj_on_of_nodup_map hnodup ht.1 hv (by rw [hid, heq])
      subst hteq
      have hts := ht.2
      simp [DocSvc.inDeleteScope] at hts
      exact hnot ⟨hts.1, hts.2⟩
    refine List.mem_filter.2 ⟨hc, ?_⟩
    simp [hnm]
  · intro c hc
    exact (List.mem_filter.1 hc).1
  · intro c hc v hv hdoc hloc
    rw [List.mem_filter] at hc
    have hnot := hc.2
    simp only [Bool.not_eq_true'] at hnot
    intro heq
    have hmem : v.id ∈
        (s.versions.filter
          (DocSvc.inDeleteScope d { locale := some L, status := none })).map
            (fun v => v.id) := by
      refine List.mem_map.2 ⟨v, List.mem_filter.2 ⟨hv, ?_⟩, rfl⟩
      simp [DocSvc.inDeleteScope, hdoc, hloc]
    rw [heq] at hnot
    simp [List.contains] at hnot
    exact absurd hmem (by simpa using hnot)

/-- Witness for the C4 theorem: after deleting the Dutch locale of document 1
in the fixture store, the component child owned by the English draft is still
present. -/
theorem delete_locale_frame_witness :
    DocSvc.ChildRow.mk 10 1 "comp-1" ∈ wStoreAfterNl.children :=
  (delete_locale_frame wStore 1 "nl" wStoreAfterNl (by decide) (by rfl)).2.2.2.1
    (DocSvc.ChildRow.mk 10 1 "comp-1") (by decide)
    (DocSvc.DocumentVersion.mk 1 1 "en" DocSvc.Status.draft "Article1-Draft-EN")
    (by decide) rfl (by decide)

/-- Claim C8: `Protect` renders its children only if all required permissions
resolve true for the user. Refuted: a user holding only the read permission,
when both read and update are required, is still shown the children — access
is granted when at least one required permission matches. -/
theorem protect_not_all_required_cex :
    (AdminUI.protect cUserPerms cRequired AdminUI.skippedQueryState).rendered =
      AdminUI.Rendered.children cUserPerms ∧
    cUnmetReq ∈ cRequired ∧
    AdminUI.requiredHeld cUserPerms cUnmetReq = false :=
  ⟨by decide, by decide, by decide⟩

/-- Claim C8 (amended): `Protect` renders its children only if at least one
required permission matches a permission the user holds (and, when a matching
permission carries conditions, only if the condition-check query reported no
false verdict); otherwise it renders the no-access state — both when no
required permission matches and when the finished condition-check query
reported a false verdict; and when the query runs, has finished loading and
failed, it renders the error state and fires the warning notification. -/
theorem protect_access_amended (a : List AdminUI.Permission)
    (p : List AdminUI.RequiredPermission) (q : AdminUI.QueryState) :
    (∀ m, (AdminUI.protect a p q).rendered = AdminUI.Rendered.children m →
      m = AdminUI.matchingPermissions a p ∧
      AdminUI.matchingPermissions a p ≠ [] ∧
      (AdminUI.shouldCheckConditions (AdminUI.matchingPermissions a p) = true →
        q.data.contains false = false)) ∧
    (AdminUI.shouldCheckConditions (AdminUI.matchingPermissions a p) = true →
      q.isLoading = false → q.error.isSome = true →
      (AdminUI.protect a p q).rendered = AdminUI.Rendered.errorPage ∧
      (AdminUI.protect a p q).warningNotified = true) ∧
    (AdminUI.matchingPermissions a p = [] →
      (AdminUI.protect a p q).rendered = AdminUI.Rendered.noAccess) ∧
    (AdminUI.shouldCheckConditions (AdminUI.matchingPermissions a p) = true →
      q.isLoading = false → q.error.isSome = false → q.data.contains false = true →
      (AdminUI.protect a p q).rendered = AdminUI.Rendered.noAccess) := by
  cases hsc : AdminUI.shouldCheckConditions (AdminUI.matchingPermissions a p) with
  | false =>
    refine ⟨?_, ?_, ?_, ?_⟩
    · intro m hm
      by_cases hl : (AdminUI.matchingPermissions a p).length > 0
      · simp [AdminUI.protect, hsc, AdminUI.skippedQueryState, hl] at hm
        subst hm
        refine ⟨rfl, ?_, by simp [hsc]⟩
        exact List.ne_nil_of_length_pos hl
      · simp [AdminUI.protect, hsc, AdminUI.skippedQueryState, hl] at hm
    · intro hsc2
      exact absurd hsc2 (by simp)
    · intro hnil
      simp [AdminUI.protect, AdminUI.shouldCheckConditions, hnil,
        AdminUI.skippedQueryState]
    · intro hsc2
      exact absurd hsc2 (by simp)
  | true =>
    have hne : AdminUI.matchingPermissions a p ≠ [] := by
      intro hnil
      rw [hnil] at hsc
      simp [AdminUI.shouldCheckConditions] at hsc
    refine ⟨?_, ?_, ?_, ?_⟩
    · intro m hm
      cases hload : q.isLoading with
      | true => simp [AdminUI.protect, hsc, hload] at hm
      | false =>
        cases herr : q.error.isSome with
        | true => simp [AdminUI.protect, hsc, hload, herr] at hm
        | false =>
          by_cases hmem : false ∈ q.data
          · simp [AdminUI.protect, hsc, hload, herr, hmem] at hm
          · simp [AdminUI.protect, hsc, hload, herr, hmem] at hm
            subst hm
            exact ⟨rfl, hne, fun _ => by simpa using hmem⟩
    · intro _ hload herr
      constructor <;> simp [AdminUI.protect, hsc, hload, herr]
    · intro hnil
      exact absurd hnil hne
    · intro _ hload herr hdata
      have hmem : false ∈ q.data := by simpa using hdata
      simp [AdminUI.protect, hsc, hload, herr, hmem]

/-- Witness for the amended C8 theorem: a conditioned permission forces the
query to run; the failed query yields the error page and the notification. -/
theorem protect_access_amended_witness :
    (AdminUI.protect cCondPerms cCondRequired cErrQuery).rendered =
      AdminUI.Rendered.errorPage ∧
    (AdminUI.protect cCondPerms cCondRequired cErrQuery).warningNotified = true :=
  (protect_access_amended cCondPerms cCondRequired cErrQuery).2.1
    (by decide) (by decide) (by decide)

/-- Claim C9: with an empty (or omitted) permissions prop, `Protect` always
renders the no-access state — the matching-permission set is empty, the
condition query is skipped, and no notification fires — regardless of the
permissions the user holds and of any query state. -/
theorem protect_empty_permissions_noAccess (a : List AdminUI.Permission)
    (q : AdminUI.QueryState) :
    (AdminUI.protect a [] q).rendered = AdminUI.Rendered.noAccess ∧
    (AdminUI.protect a [] q).warningNotified = false := by
  have hm : AdminUI.matchingPermissions a [] = [] := by
    simp [AdminUI.matchingPermissions]
  constructor <;>
    simp [AdminUI.protect, hm, AdminUI.shouldCheckConditions, AdminUI.skippedQueryState]
